import Mathlib

/-!
Verification of the OpenVINO Rust-bridge headers
(`src/inference-engine/ie_bridges/rust/src/binding/cpp/bridge.h` and
`src/inference-engine/ie_bridges/rust/src/bridge.h`).

The headers are a handle-forwarding layer: each function is a one-line call
into the wrapped InferenceEngine library, boxing the result in a fresh
`std::unique_ptr`.  We embed the layer as state transformers over an explicit
handle heap, so that ownership transfer (a `unique_ptr` taken by value is
destroyed when the callee returns), borrowing (a C++ reference leaves the heap
entry alive), fresh allocation (`std::make_unique` returns a handle never
returned before), exception propagation, and null/dangling dereference
(undefined behaviour) are all observable.

The wrapped library (`inference_engine.hpp`) belongs to the repository but is
not among the provided sources; its routines are modelled from the
specification, each marked `Modelled from the spec:` in its doc comment, and
parameterised by an abstract environment `LibEnv` wherever the specification
delegates behaviour to the library.
-/

/-- A heap handle: the address held by a `std::unique_ptr` or passed as a
C++ reference. -/
abbrev Handle := Nat

/-- Errors raised by the wrapped library.  The taxonomy follows the spec:
invalid path, malformed model, unsupported device, other internal failure. -/
inductive LibError where
  | fileNotFound (path : String)
  | parseError (msg : String)
  | deviceError (device : String)
  | configError (path : String)
  | otherErr (code : Nat)
deriving DecidableEq

/-- The state of an `InferenceEngine::Core` object: the configuration path it
was constructed with (the empty string selects default configuration
discovery, per the spec). -/
structure CoreVal where
  configPath : String
deriving DecidableEq

/-- The opaque content of an `InferenceEngine::CNNNetwork` object, produced
entirely by the wrapped library. -/
structure NetworkVal where
  id : Nat
deriving DecidableEq

/-- The opaque content of an `InferenceEngine::ExecutableNetwork` object. -/
structure ExecVal where
  id : Nat
deriving DecidableEq

/-- The opaque content of an `InferenceEngine::InferRequest` object. -/
structure RequestVal where
  id : Nat
deriving DecidableEq

/-- Abstract behaviour of the wrapped library, covering exactly what the spec
delegates to it: which files exist and are readable, how a model parses, how a
network compiles for a device, whether a configuration path is malformed, and
how an inference request is created.  All theorems quantify over this
environment unless a concrete instance is needed. -/
structure LibEnv where
  fileExists : String → Bool
  parse : CoreVal → String → String → Except LibError NetworkVal
  compile : CoreVal → NetworkVal → String → Except LibError ExecVal
  ctorCheck : String → Option LibError
  createReq : ExecVal → Except LibError RequestVal

/-- Modelled from the spec: the `InferenceEngine::Core(xmlConfigFile)`
constructor, missing from the provided sources.  A malformed path fails with
an external-library error (delegated to `env.ctorCheck`); otherwise the core
is in the configuration state named by the path, the empty path selecting
default configuration discovery. -/
def Core.construct (env : LibEnv) (xmlConfigFile : String) : Except LibError CoreVal :=
  match env.ctorCheck xmlConfigFile with
  | some e => Except.error e
  | none => Except.ok ⟨xmlConfigFile⟩

/-- Modelled from the spec: the no-argument `InferenceEngine::Core()`
constructor, missing from the provided sources.  Per the spec an absent path
selects default configuration discovery, the same state the path constructor
reaches on the empty path. -/
def Core.constructDefault (env : LibEnv) : Except LibError CoreVal :=
  match env.ctorCheck "" with
  | some e => Except.error e
  | none => Except.ok ⟨""⟩

/-- Modelled from the spec: `Core::ReadNetwork(modelPath, binPath)`, missing
from the provided sources.  It fails with a file error when the model path is
unreadable, and otherwise delegates parsing (including all interpretation of
an empty weights path) to the library (`env.parse`). -/
def CoreVal.ReadNetwork (env : LibEnv) (core : CoreVal) (modelPath binPath : String) :
    Except LibError NetworkVal :=
  if env.fileExists modelPath then env.parse core modelPath binPath
  else Except.error (LibError.fileNotFound modelPath)

/-- Modelled from the spec: `Core::LoadNetwork(network, device)`, missing from
the provided sources.  A member of `Core`, it compiles the network against the
named device; device validation and compilation are delegated entirely to the
library (`env.compile`). -/
def CoreVal.LoadNetwork (env : LibEnv) (core : CoreVal) (network : NetworkVal)
    (device : String) : Except LibError ExecVal :=
  env.compile core network device

/-- Modelled from the spec: `ExecutableNetwork::CreateInferRequest()`, missing
from the provided sources; behaviour delegated to the library
(`env.createReq`). -/
def ExecVal.CreateInferRequest (env : LibEnv) (network : ExecVal) :
    Except LibError RequestVal :=
  env.createReq network

instance {ε α : Type} [DecidableEq ε] [DecidableEq α] : DecidableEq (Except ε α)
  | Except.error x, Except.error y =>
    if h : x = y then isTrue (by rw [h]) else isFalse (fun hc => h (by injection hc))
  | Except.error _, Except.ok _ => isFalse (fun hc => Except.noConfusion hc)
  | Except.ok _, Except.error _ => isFalse (fun hc => Except.noConfusion hc)
  | Except.ok x, Except.ok y =>
    if h : x = y then isTrue (by rw [h]) else isFalse (fun hc => h (by injection hc))

/-- Association-list lookup on handle-keyed stores. -/
def assoc {α : Type} (p : Handle) : List (Handle × α) → Option α
  | [] => none
  | (q, v) :: l => if p = q then some v else assoc p l

/-- Remove every entry at a handle (the effect of destroying the object a
`unique_ptr` owns). -/
def eraseKey {α : Type} (p : Handle) : List (Handle × α) → List (Handle × α)
  | [] => []
  | (q, v) :: l => if q = p then eraseKey p l else (q, v) :: eraseKey p l

/-- The handles present in a store. -/
def keysOf {α : Type} (l : List (Handle × α)) : List Handle :=
  l.map Prod.fst

/-- The heap of live library objects, one store per object kind, plus the next
fresh address `std::make_unique` will return. -/
structure Heap where
  next : Handle
  cores : List (Handle × CoreVal)
  networks : List (Handle × NetworkVal)
  execs : List (Handle × ExecVal)
  requests : List (Handle × RequestVal)
deriving DecidableEq

def Heap.getCore (h : Heap) (p : Handle) : Option CoreVal := assoc p h.cores

def Heap.getNetwork (h : Heap) (p : Handle) : Option NetworkVal := assoc p h.networks

def Heap.getExec (h : Heap) (p : Handle) : Option ExecVal := assoc p h.execs

def Heap.getRequest (h : Heap) (p : Handle) : Option RequestVal := assoc p h.requests

def Heap.allocCore (h : Heap) (v : CoreVal) : Handle × Heap :=
  (h.next, ⟨h.next + 1, (h.next, v) :: h.cores, h.networks, h.execs, h.requests⟩)

def Heap.allocNetwork (h : Heap) (v : NetworkVal) : Handle × Heap :=
  (h.next, ⟨h.next + 1, h.cores, (h.next, v) :: h.networks, h.execs, h.requests⟩)

def Heap.allocExec (h : Heap) (v : ExecVal) : Handle × Heap :=
  (h.next, ⟨h.next + 1, h.cores, h.networks, (h.next, v) :: h.execs, h.requests⟩)

def Heap.allocRequest (h : Heap) (v : RequestVal) : Handle × Heap :=
  (h.next, ⟨h.next + 1, h.cores, h.networks, h.execs, (h.next, v) :: h.requests⟩)

def Heap.freeCore (h : Heap) (p : Handle) : Heap :=
  ⟨h.next, eraseKey p h.cores, h.networks, h.execs, h.requests⟩

def Heap.freeNetwork (h : Heap) (p : Handle) : Heap :=
  ⟨h.next, h.cores, eraseKey p h.networks, h.execs, h.requests⟩

/-- Every handle live in the heap, of any kind. -/
def Heap.handles (h : Heap) : List Handle :=
  keysOf h.cores ++ keysOf h.networks ++ keysOf h.execs ++ keysOf h.requests

/-- Heap well-formedness: every live handle is below the allocation counter,
so the next allocation is fresh. -/
def Heap.wf (h : Heap) : Prop :=
  ∀ p ∈ h.handles, p < h.next

instance (h : Heap) : Decidable h.wf := by
  unfold Heap.wf; infer_instance

/-- Outcome of one bridge call: a returned handle, a propagated library
exception, or undefined behaviour (null or dangling dereference). -/
inductive Res (α : Type) where
  | ok (v : α)
  | err (e : LibError)
  | ub
deriving DecidableEq

/-- Embedding of `core_new` from `binding/cpp/bridge.h` (identical in
`src/bridge.h`): construct `Core(std::string(xmlConfigFile))` and box it.  The
C++ default argument makes a no-argument call equal to a call with the empty
string. -/
def core_new (env : LibEnv) (h : Heap) (xmlConfigFile : String) : Res Handle × Heap :=
  match Core.construct env xmlConfigFile with
  | Except.error e => (Res.err e, h)
  | Except.ok c =>
    let a := h.allocCore c
    (Res.ok a.1, a.2)

/-- Embedding of `core_new_default` from `binding/cpp/bridge.h` (identical in
`src/bridge.h`): construct `Core()` and box it. -/
def core_new_default (env : LibEnv) (h : Heap) : Res Handle × Heap :=
  match Core.constructDefault env with
  | Except.error e => (Res.err e, h)
  | Except.ok c =>
    let a := h.allocCore c
    (Res.ok a.1, a.2)

/-- Embedding of `read_network` from `binding/cpp/bridge.h`: the core is taken
by C++ reference (`Core &core`), so it stays live; the two path strings are
forwarded to `core.ReadNetwork` and the resulting network is boxed.  A
dangling core reference is undefined behaviour. -/
def read_network (env : LibEnv) (h : Heap) (core : Handle) (modelPath binPath : String) :
    Res Handle × Heap :=
  match h.getCore core with
  | none => (Res.ub, h)
  | some c =>
    match CoreVal.ReadNetwork env c modelPath binPath with
    | Except.error e => (Res.err e, h)
    | Except.ok n =>
      let a := h.allocNetwork n
      (Res.ok a.1, a.2)

namespace RootBridge

/-- Embedding of `read_network` from `src/bridge.h`: the core is taken as
`std::unique_ptr<Core>` by value, so it may be null (undefined behaviour on
`core->ReadNetwork`) and is destroyed when the function returns, on the error
path as well; the two path strings are forwarded to `core->ReadNetwork` and
the resulting network is boxed. -/
def read_network (env : LibEnv) (h : Heap) (core : Option Handle)
    (modelPath binPath : String) : Res Handle × Heap :=
  match core with
  | none => (Res.ub, h)
  | some cp =>
    match h.getCore cp with
    | none => (Res.ub, h)
    | some c =>
      match CoreVal.ReadNetwork env c modelPath binPath with
      | Except.error e => (Res.err e, h.freeCore cp)
      | Except.ok n =>
        let a := (h.freeCore cp).allocNetwork n
        (Res.ok a.1, a.2)

end RootBridge

/-- Embedding of `load_network` from `binding/cpp/bridge.h`: the core is a C++
reference, the network a `std::unique_ptr<CNNNetwork>` taken by value (null if
the caller passes an empty pointer), the device a string.  The body
dereferences `*network` with no null check (undefined behaviour on null or
dangling), calls `core.LoadNetwork(*network, device)`, and boxes the result;
the network `unique_ptr` is destroyed when the function returns, on the error
path as well. -/
def load_network (env : LibEnv) (h : Heap) (core : Handle) (network : Option Handle)
    (device : String) : Res Handle × Heap :=
  match network with
  | none => (Res.ub, h)
  | some np =>
    match h.getNetwork np with
    | none => (Res.ub, h)
    | some n =>
      match h.getCore core with
      | none => (Res.ub, h)
      | some c =>
        match CoreVal.LoadNetwork env c n device with
        | Except.error e => (Res.err e, h.freeNetwork np)
        | Except.ok x =>
          let a := (h.freeNetwork np).allocExec x
          (Res.ok a.1, a.2)

/-- Embedding of `create_infer_request` from `binding/cpp/bridge.h`: the
executable network is taken by C++ reference (`ExecutableNetwork &network`),
so it stays live; `network.CreateInferRequest()` is called and the result is
boxed. -/
def create_infer_request (env : LibEnv) (h : Heap) (network : Handle) :
    Res Handle × Heap :=
  match h.getExec network with
  | none => (Res.ub, h)
  | some x =>
    match ExecVal.CreateInferRequest env x with
    | Except.error e => (Res.err e, h)
    | Except.ok r =>
      let a := h.allocRequest r
      (Res.ok a.1, a.2)

/-- The network value a `read_network` call produced: look the returned handle
up in the returned heap. -/
def networkResult (r : Res Handle × Heap) : Res NetworkVal :=
  match r.1 with
  | Res.ok p =>
    match r.2.getNetwork p with
    | some n => Res.ok n
    | none => Res.ub
  | Res.err e => Res.err e
  | Res.ub => Res.ub

/-- View a library result as a bridge outcome. -/
def resOfExcept {α : Type} : Except LibError α → Res α
  | Except.error e => Res.err e
  | Except.ok v => Res.ok v

/-! Helper lemmas about the handle stores. -/

theorem assoc_cons_self {α : Type} (p : Handle) (v : α) (l : List (Handle × α)) :
    assoc p ((p, v) :: l) = some v := by
  simp [assoc]

theorem assoc_cons_ne {α : Type} {p q : Handle} (hpq : p ≠ q) (v : α)
    (l : List (Handle × α)) : assoc p ((q, v) :: l) = assoc p l := by
  simp [assoc, hpq]

theorem assoc_eraseKey_self {α : Type} (p : Handle) (l : List (Handle × α)) :
    assoc p (eraseKey p l) = none := by
  induction l with
  | nil => simp [assoc, eraseKey]
  | cons hd tl ih =>
    obtain ⟨q, v⟩ := hd
    by_cases hq : q = p
    · simp [eraseKey, hq, ih]
    · have hpq : p ≠ q := fun hh => hq hh.symm
      simp only [eraseKey, if_neg hq]
      rw [assoc_cons_ne hpq]
      exact ih

theorem assoc_eraseKey_ne {α : Type} {p q : Handle} (hpq : q ≠ p)
    (l : List (Handle × α)) : assoc q (eraseKey p l) = assoc q l := by
  induction l with
  | nil => simp [eraseKey]
  | cons hd tl ih =>
    obtain ⟨r, v⟩ := hd
    by_cases hr : r = p
    · subst hr
      simp [eraseKey, assoc, hpq, ih]
    · by_cases hqr : q = r
      · subst hqr
        simp [eraseKey, hr, assoc]
      · simp [eraseKey, hr, assoc, hqr, ih]

theorem mem_keys_eraseKey {α : Type} {p q : Handle} {l : List (Handle × α)}
    (hmem : q ∈ keysOf (eraseKey p l)) : q ∈ keysOf l := by
  induction l with
  | nil => simpa [eraseKey] using hmem
  | cons hd tl ih =>
    obtain ⟨r, v⟩ := hd
    by_cases hr : r = p
    · simp only [eraseKey, if_pos hr] at hmem
      exact List.mem_cons_of_mem _ (ih hmem)
    · simp only [eraseKey, if_neg hr, keysOf, List.map_cons, List.mem_cons] at hmem ⊢
      rcases hmem with hm | hm
      · exact Or.inl hm
      · exact Or.inr (ih hm)

theorem mem_keys_of_assoc_some {α : Type} {p : Handle} {v : α}
    {l : List (Handle × α)} (hsome : assoc p l = some v) : p ∈ keysOf l := by
  induction l with
  | nil => simp [assoc] at hsome
  | cons hd tl ih =>
    obtain ⟨q, w⟩ := hd
    by_cases hq : p = q
    · simp [keysOf, hq]
    · rw [assoc_cons_ne hq] at hsome
      exact List.mem_cons_of_mem _ (ih hsome)

theorem assoc_none_of_not_mem_keys {α : Type} {p : Handle}
    {l : List (Handle × α)} (hnot : p ∉ keysOf l) : assoc p l = none := by
  induction l with
  | nil => simp [assoc]
  | cons hd tl ih =>
    obtain ⟨q, w⟩ := hd
    simp only [keysOf, List.map_cons, List.mem_cons] at hnot
    push_neg at hnot
    rw [assoc_cons_ne hnot.1]
    exact ih hnot.2

/-- A well-formed heap never has its allocation counter live. -/
theorem wf_next_not_mem {h : Heap} (hwf : h.wf) : h.next ∉ h.handles := by
  intro hmem
  exact absurd (hwf h.next hmem) (lt_irrefl _)

theorem mem_handles_allocCore {h : Heap} {v : CoreVal} {p : Handle}
    (hmem : p ∈ (h.allocCore v).2.handles) : p = h.next ∨ p ∈ h.handles := by
  simp only [Heap.allocCore, Heap.handles, keysOf, List.map_cons, List.mem_append,
    List.mem_cons] at hmem ⊢
  tauto

theorem mem_handles_allocNetwork {h : Heap} {v : NetworkVal} {p : Handle}
    (hmem : p ∈ (h.allocNetwork v).2.handles) : p = h.next ∨ p ∈ h.handles := by
  simp only [Heap.allocNetwork, Heap.handles, keysOf, List.map_cons, List.mem_append,
    List.mem_cons] at hmem ⊢
  tauto

theorem mem_handles_allocExec {h : Heap} {v : ExecVal} {p : Handle}
    (hmem : p ∈ (h.allocExec v).2.handles) : p = h.next ∨ p ∈ h.handles := by
  simp only [Heap.allocExec, Heap.handles, keysOf, List.map_cons, List.mem_append,
    List.mem_cons] at hmem ⊢
  tauto

theorem mem_handles_allocRequest {h : Heap} {v : RequestVal} {p : Handle}
    (hmem : p ∈ (h.allocRequest v).2.handles) : p = h.next ∨ p ∈ h.handles := by
  simp only [Heap.allocRequest, Heap.handles, keysOf, List.map_cons, List.mem_append,
    List.mem_cons] at hmem ⊢
  tauto

theorem wf_allocCore {h : Heap} (hwf : h.wf) (v : CoreVal) : (h.allocCore v).2.wf := by
  intro p hp
  rcases mem_handles_allocCore hp with hp | hp
  · simp [Heap.allocCore, hp]
  · exact lt_trans (hwf p hp) (by simp [Heap.allocCore])

theorem wf_allocNetwork {h : Heap} (hwf : h.wf) (v : NetworkVal) :
    (h.allocNetwork v).2.wf := by
  intro p hp
  rcases mem_handles_allocNetwork hp with hp | hp
  · simp [Heap.allocNetwork, hp]
  · exact lt_trans (hwf p hp) (by simp [Heap.allocNetwork])

theorem wf_allocExec {h : Heap} (hwf : h.wf) (v : ExecVal) : (h.allocExec v).2.wf := by
  intro p hp
  rcases mem_handles_allocExec hp with hp | hp
  · simp [Heap.allocExec, hp]
  · exact lt_trans (hwf p hp) (by simp [Heap.allocExec])

theorem wf_allocRequest {h : Heap} (hwf : h.wf) (v : RequestVal) :
    (h.allocRequest v).2.wf := by
  intro p hp
  rcases mem_handles_allocRequest hp with hp | hp
  · simp [Heap.allocRequest, hp]
  · exact lt_trans (hwf p hp) (by simp [Heap.allocRequest])

theorem wf_freeCore {h : Heap} (hwf : h.wf) (p : Handle) : (h.freeCore p).wf := by
  intro q hq
  apply hwf
  simp only [Heap.freeCore, Heap.handles, List.mem_append] at hq ⊢
  rcases hq with ((hq | hq) | hq) | hq
  · exact Or.inl (Or.inl (Or.inl (mem_keys_eraseKey hq)))
  · exact Or.inl (Or.inl (Or.inr hq))
  · exact Or.inl (Or.inr hq)
  · exact Or.inr hq

theorem wf_freeNetwork {h : Heap} (hwf : h.wf) (p : Handle) : (h.freeNetwork p).wf := by
  intro q hq
  apply hwf
  simp only [Heap.freeNetwork, Heap.handles, List.mem_append] at hq ⊢
  rcases hq with ((hq | hq) | hq) | hq
  · exact Or.inl (Or.inl (Or.inl hq))
  · exact Or.inl (Or.inl (Or.inr (mem_keys_eraseKey hq)))
  · exact Or.inl (Or.inr hq)
  · exact Or.inr hq

/-! Interaction of lookups with allocation and deallocation. -/

theorem getNetwork_allocNetwork_self (h : Heap) (v : NetworkVal) :
    (h.allocNetwork v).2.getNetwork (h.allocNetwork v).1 = some v := by
  simp [Heap.allocNetwork, Heap.getNetwork, assoc_cons_self]

theorem getCore_allocNetwork (h : Heap) (v : NetworkVal) (p : Handle) :
    (h.allocNetwork v).2.getCore p = h.getCore p := rfl

theorem getCore_freeCore_self (h : Heap) (p : Handle) :
    (h.freeCore p).getCore p = none := by
  simp [Heap.freeCore, Heap.getCore, assoc_eraseKey_self]

theorem getNetwork_freeCore (h : Heap) (p q : Handle) :
    (h.freeCore p).getNetwork q = h.getNetwork q := rfl

theorem getNetwork_freeNetwork_self (h : Heap) (p : Handle) :
    (h.freeNetwork p).getNetwork p = none := by
  simp [Heap.freeNetwork, Heap.getNetwork, assoc_eraseKey_self]

theorem getCore_freeNetwork (h : Heap) (p q : Handle) :
    (h.freeNetwork p).getCore q = h.getCore q := rfl

/-! Concrete library environments and heaps used to instantiate the universally
quantified theorems below on closed inputs. -/

/-- A concrete library environment: every file except "missing.xml" exists,
parsing and compilation succeed (compilation fails on a core configured with
the path "bad"), configuration path "badcfg" is rejected by the core
constructor, and request creation fails exactly on the executable network with
content 99. -/
def env0 : LibEnv :=
  ⟨fun s => s != "missing.xml",
   fun _ mp bp => Except.ok ⟨mp.length + bp.length⟩,
   fun c n d => if c.configPath = "bad" then Except.error (LibError.deviceError d)
                else Except.ok ⟨n.id⟩,
   fun s => if s = "badcfg" then some (LibError.configError s) else none,
   fun x => if x.id = 99 then Except.error (LibError.otherErr 99)
            else Except.ok ⟨x.id⟩⟩

/-- A concrete library environment whose core constructor rejects every
configuration path. -/
def envbad : LibEnv :=
  ⟨fun _ => true,
   fun _ mp bp => Except.ok ⟨mp.length + bp.length⟩,
   fun _ n _ => Except.ok ⟨n.id⟩,
   fun s => some (LibError.configError s),
   fun x => Except.ok ⟨x.id⟩⟩

/-- A heap with one live core (handle 0) and one live network (handle 1). -/
def h0 : Heap := ⟨2, [(0, ⟨""⟩)], [(1, ⟨7⟩)], [], []⟩

/-- A heap like h0 but with no core at handle 0. -/
def hbad : Heap := ⟨2, [], [(1, ⟨7⟩)], [], []⟩

/-- A heap like h0 but whose core is configured with the path "bad", on which
env0 compilation fails. -/
def hbadcore : Heap := ⟨2, [(0, ⟨"bad"⟩)], [(1, ⟨7⟩)], [], []⟩

/-- A heap with one live executable network (handle 2). -/
def hexec : Heap := ⟨3, [], [], [(2, ⟨5⟩)], []⟩

/-- A heap with one live executable network (handle 2) on which env0 request
creation fails. -/
def hexec99 : Heap := ⟨3, [], [], [(2, ⟨99⟩)], []⟩

/-- C3: engine construction via core_new_default is equivalent to construction
via core_new with the empty (absent) configuration path: for every library
environment and heap, both entry points return the same outcome and the same
heap, the new core being in the default-configuration-discovery state. -/
theorem c3_core_new_default_equiv_empty_path :
    ∀ (env : LibEnv) (h : Heap), core_new env h "" = core_new_default env h := by
  intro env h
  cases hc : env.ctorCheck "" with
  | none => simp [core_new, core_new_default, Core.construct, Core.constructDefault, hc]
  | some e => simp [core_new, core_new_default, Core.construct, Core.constructDefault, hc]

/-- C7: read_network forwards both of its path arguments verbatim to the
engine's model-parsing routine, in both duplicated variants: the network value
each variant produces is exactly the library's result at the unmodified pair
of paths, for every weights path including the empty string. -/
theorem c7_read_network_forwards_paths_verbatim :
    ∀ (env : LibEnv) (h : Heap) (cp : Handle) (c : CoreVal) (modelPath binPath : String),
      h.getCore cp = some c →
      networkResult (read_network env h cp modelPath binPath) =
        resOfExcept (CoreVal.ReadNetwork env c modelPath binPath) ∧
      networkResult (RootBridge.read_network env h (some cp) modelPath binPath) =
        resOfExcept (CoreVal.ReadNetwork env c modelPath binPath) := by
  intro env h cp c mp bp hc
  constructor
  · cases hr : CoreVal.ReadNetwork env c mp bp with
    | error e => simp [read_network, networkResult, resOfExcept, hc, hr]
    | ok n =>
      simp [read_network, networkResult, resOfExcept, hc, hr,
        Heap.allocNetwork, Heap.getNetwork, assoc]
  · cases hr : CoreVal.ReadNetwork env c mp bp with
    | error e => simp [RootBridge.read_network, networkResult, resOfExcept, hc, hr]
    | ok n =>
      simp [RootBridge.read_network, networkResult, resOfExcept, hc, hr,
        Heap.allocNetwork, Heap.freeCore, Heap.getNetwork, assoc]

/-- Witness for C7 at a concrete input, with an empty weights path. -/
theorem c7_witness :
    networkResult (read_network env0 h0 0 "model.xml" "") =
      resOfExcept (CoreVal.ReadNetwork env0 ⟨""⟩ "model.xml" "") ∧
    networkResult (RootBridge.read_network env0 h0 (some 0) "model.xml" "") =
      resOfExcept (CoreVal.ReadNetwork env0 ⟨""⟩ "model.xml" "") :=
  c7_read_network_forwards_paths_verbatim env0 h0 0 ⟨""⟩ "model.xml" "" (by decide)

/-- C8: for a model path the library cannot read, read_network fails with a
file error and returns no network handle: the outcome is the error alone and
the heap is unchanged, so no new network exists. -/
theorem c8_read_network_missing_model_fails :
    ∀ (env : LibEnv) (h : Heap) (cp : Handle) (c : CoreVal) (modelPath binPath : String),
      h.getCore cp = some c →
      env.fileExists modelPath = false →
      read_network env h cp modelPath binPath =
        (Res.err (LibError.fileNotFound modelPath), h) := by
  intro env h cp c mp bp hc hf
  simp [read_network, hc, CoreVal.ReadNetwork, hf]

/-- Witness for C8 at a concrete input. -/
theorem c8_witness :
    read_network env0 h0 0 "missing.xml" "weights.bin" =
      (Res.err (LibError.fileNotFound "missing.xml"), h0) :=
  c8_read_network_missing_model_fails env0 h0 0 ⟨""⟩ "missing.xml" "weights.bin"
    (by decide) (by decide)

/-- C2: the two duplicate declarations of read_network differ only in the
ownership discipline of the engine handle: for every engine state, model path
and weights path, both forward the same two path strings to the same
model-parsing routine and produce the same resulting network value, while the
reference variant leaves the engine live and the owning variant consumes it. -/
theorem c2_read_network_variants_agree :
    ∀ (env : LibEnv) (h : Heap) (cp : Handle) (c : CoreVal) (modelPath binPath : String),
      h.getCore cp = some c →
      networkResult (read_network env h cp modelPath binPath) =
        networkResult (RootBridge.read_network env h (some cp) modelPath binPath) ∧
      (read_network env h cp modelPath binPath).2.getCore cp = some c ∧
      (RootBridge.read_network env h (some cp) modelPath binPath).2.getCore cp = none := by
  intro env h cp c mp bp hc
  cases hr : CoreVal.ReadNetwork env c mp bp with
  | error e =>
    refine ⟨?_, ?_, ?_⟩
    · simp [read_network, RootBridge.read_network, networkResult, hc, hr]
    · simp [read_network, hc, hr]
    · simp [RootBridge.read_network, hc, hr, getCore_freeCore_self]
  | ok n =>
    refine ⟨?_, ?_, ?_⟩
    · simp [read_network, RootBridge.read_network, networkResult, hc, hr,
        Heap.allocNetwork, Heap.freeCore, Heap.getNetwork, assoc]
    · simp [read_network, hc, hr, getCore_allocNetwork]
    · have hc' : assoc cp h.cores = some c := hc
      simp [RootBridge.read_network, Heap.getCore, hc', hr, Heap.allocNetwork,
        Heap.freeCore, assoc_eraseKey_self]

/-- Witness for C2 at a concrete input. -/
theorem c2_witness :
    networkResult (read_network env0 h0 0 "model.xml" "weights.bin") =
      networkResult (RootBridge.read_network env0 h0 (some 0) "model.xml" "weights.bin") ∧
    (read_network env0 h0 0 "model.xml" "weights.bin").2.getCore 0 = some ⟨""⟩ ∧
    (RootBridge.read_network env0 h0 (some 0) "model.xml" "weights.bin").2.getCore 0 = none :=
  c2_read_network_variants_agree env0 h0 0 ⟨""⟩ "model.xml" "weights.bin" (by decide)

/-- C1 counterexample: the network-compile operation is not a function of a
network handle and a device string alone.  The embedded load_network takes an
engine handle as well, and on two heaps whose network handle 1 holds the very
same network value, with the same device string, the outcome differs depending
on the engine-handle argument's state, refuting the claimed
engine-free signature. -/
theorem c1_counterexample :
    Heap.getNetwork h0 1 = Heap.getNetwork hbad 1 ∧
    (load_network env0 h0 0 (some 1) "CPU").1 ≠ (load_network env0 hbad 0 (some 1) "CPU").1 := by
  constructor
  · rfl
  · decide

/-- C1 (amended): load_network takes an engine handle by reference in addition
to the exclusively-owned network handle and the device string; it compiles the
network against the named device through the engine, returns an exclusively
owned executable-network handle holding the library's compilation result, and
leaves the engine live. -/
theorem c1_load_network_signature_with_engine :
    ∀ (env : LibEnv) (h : Heap) (cp : Handle) (c : CoreVal) (np : Handle)
      (n : NetworkVal) (device : String) (x : ExecVal),
      h.getCore cp = some c →
      h.getNetwork np = some n →
      env.compile c n device = Except.ok x →
      ∃ ep h2, load_network env h cp (some np) device = (Res.ok ep, h2) ∧
        h2.getExec ep = some x ∧ h2.getCore cp = some c := by
  intro env h cp c np n d x hc hn hx
  refine ⟨h.next, ((h.freeNetwork np).allocExec x).2, ?_, ?_, ?_⟩
  · simp [load_network, hc, hn, CoreVal.LoadNetwork, hx, Heap.freeNetwork, Heap.allocExec]
  · simp [Heap.allocExec, Heap.freeNetwork, Heap.getExec, assoc_cons_self]
  · simpa [Heap.allocExec, Heap.freeNetwork, Heap.getCore] using hc

/-- Witness for the amended C1 at a concrete input. -/
theorem c1_witness :
    ∃ ep h2, load_network env0 h0 0 (some 1) "CPU" = (Res.ok ep, h2) ∧
      h2.getExec ep = some ⟨7⟩ ∧ h2.getCore 0 = some ⟨""⟩ :=
  c1_load_network_signature_with_engine env0 h0 0 ⟨""⟩ 1 ⟨7⟩ "CPU" ⟨7⟩
    (by decide) (by decide) (by simp [env0])

/-- C4: load_network always consumes its network argument: whenever the owned
network handle and the engine are valid, the call never hits undefined
behaviour, the network handle is gone from the resulting heap whatever the
library answered, and any subsequent load_network on that same handle fails
(undefined dangling use, never a silent success on stale state). -/
theorem c4_load_network_consumes_network :
    ∀ (env : LibEnv) (h : Heap) (cp : Handle) (c : CoreVal) (np : Handle)
      (n : NetworkVal) (device : String) (r : Res Handle) (h2 : Heap),
      h.getCore cp = some c →
      h.getNetwork np = some n →
      load_network env h cp (some np) device = (r, h2) →
      r ≠ Res.ub ∧
      h2.getNetwork np = none ∧
      (∀ (cp2 : Handle) (d2 : String),
        load_network env h2 cp2 (some np) d2 = (Res.ub, h2)) := by
  intro env h cp c np n d r h2 hc hn heq
  cases hx : env.compile c n d with
  | error e =>
    simp only [load_network, hc, hn, CoreVal.LoadNetwork, hx, Prod.mk.injEq] at heq
    obtain ⟨hr, hh⟩ := heq
    subst hr hh
    refine ⟨by simp, getNetwork_freeNetwork_self h np, ?_⟩
    intro cp2 d2
    simp [load_network, Heap.freeNetwork, Heap.getNetwork, assoc_eraseKey_self]
  | ok x =>
    simp only [load_network, hc, hn, CoreVal.LoadNetwork, hx, Heap.freeNetwork,
      Heap.allocExec, Prod.mk.injEq] at heq
    obtain ⟨hr, hh⟩ := heq
    subst hr hh
    refine ⟨by simp, ?_, ?_⟩
    · simp [Heap.getNetwork, assoc_eraseKey_self]
    · intro cp2 d2
      simp [load_network, Heap.getNetwork, assoc_eraseKey_self]

/-- Witness for C4 at a concrete input. -/
theorem c4_witness :
    (Res.ok 2 : Res Handle) ≠ Res.ub ∧
    Heap.getNetwork ⟨3, [(0, ⟨""⟩)], [], [(2, ⟨7⟩)], []⟩ 1 = none ∧
    (∀ (cp2 : Handle) (d2 : String),
      load_network env0 ⟨3, [(0, ⟨""⟩)], [], [(2, ⟨7⟩)], []⟩ cp2 (some 1) d2 =
        (Res.ub, ⟨3, [(0, ⟨""⟩)], [], [(2, ⟨7⟩)], []⟩)) :=
  c4_load_network_consumes_network env0 h0 0 ⟨""⟩ 1 ⟨7⟩ "CPU" (Res.ok 2)
    ⟨3, [(0, ⟨""⟩)], [], [(2, ⟨7⟩)], []⟩ (by decide) (by decide)
    (by simp [load_network, h0, env0, Heap.getNetwork, Heap.getCore, assoc,
      CoreVal.LoadNetwork, Heap.freeNetwork, eraseKey, Heap.allocExec])

/-- C5: create_infer_request borrows its executable-network argument and never
consumes it: the executable network stays live and unchanged, every previously
created request stays live and unchanged, and a second call on the same handle
still finds it, each successful call returning a fresh handle distinct from
the previous one. -/
theorem c5_create_infer_request_borrows :
    ∀ (env : LibEnv) (h : Heap) (ep : Handle) (x : ExecVal) (r1 : Res Handle) (h1 : Heap),
      h.wf →
      h.getExec ep = some x →
      create_infer_request env h ep = (r1, h1) →
      h1.getExec ep = some x ∧
      (∀ q v, h.getRequest q = some v → h1.getRequest q = some v) ∧
      (∀ rp1, r1 = Res.ok rp1 →
        h1.getRequest rp1 ≠ none ∧
        (∀ (r2 : Res Handle) (h2 : Heap), create_infer_request env h1 ep = (r2, h2) →
          h2.getExec ep = some x ∧
          h2.getRequest rp1 = h1.getRequest rp1 ∧
          (∀ rp2, r2 = Res.ok rp2 → rp2 ≠ rp1))) := by
  intro env h ep x r1 h1 hwf hx heq1
  cases hcr : env.createReq x with
  | error e =>
    simp only [create_infer_request, hx, ExecVal.CreateInferRequest, hcr,
      Prod.mk.injEq] at heq1
    obtain ⟨hr, hh⟩ := heq1
    subst hr hh
    refine ⟨hx, fun q v hq => hq, ?_⟩
    intro rp1 hr1
    cases hr1
  | ok rv =>
    simp only [create_infer_request, hx, ExecVal.CreateInferRequest, hcr,
      Heap.allocRequest, Prod.mk.injEq] at heq1
    obtain ⟨hr, hh⟩ := heq1
    subst hr hh
    refine ⟨hx, ?_, ?_⟩
    · intro q v hq
      have hqk : q ∈ keysOf h.requests := mem_keys_of_assoc_some hq
      have hqh : q ∈ h.handles := by
        simp only [Heap.handles, List.mem_append]
        exact Or.inr hqk
      have hqlt : q < h.next := hwf q hqh
      have hqne : q ≠ h.next := Nat.ne_of_lt hqlt
      simpa [Heap.getRequest, assoc_cons_ne hqne] using hq
    · intro rp1 hr1
      have hrp1 : rp1 = h.next := by
        cases hr1
        rfl
      subst hrp1
      constructor
      · simp [Heap.getRequest, assoc_cons_self]
      · intro r2 h2 heq2
        have hex2 : (⟨h.next + 1, h.cores, h.networks, h.execs,
            (h.next, rv) :: h.requests⟩ : Heap).getExec ep = some x := hx
        simp only [create_infer_request, hex2, ExecVal.CreateInferRequest, hcr,
          Heap.allocRequest, Prod.mk.injEq] at heq2
        obtain ⟨hr2, hh2⟩ := heq2
        subst hr2 hh2
        refine ⟨hx, ?_, ?_⟩
        · have hne : h.next ≠ h.next + 1 := Nat.ne_of_lt (Nat.lt_succ_self _)
          simp [Heap.getRequest, assoc_cons_ne hne]
        · intro rp2 hcon
          have hinj : h.next + 1 = rp2 := by injection hcon
          subst hinj
          exact Nat.succ_ne_self h.next

/-- Witness for C5 at a concrete input: two requests created from the same
live executable network. -/
theorem c5_witness :
    Heap.getExec ⟨4, [], [], [(2, ⟨5⟩)], [(3, ⟨5⟩)]⟩ 2 = some ⟨5⟩ ∧
    (∀ q v, hexec.getRequest q = some v →
      Heap.getRequest ⟨4, [], [], [(2, ⟨5⟩)], [(3, ⟨5⟩)]⟩ q = some v) ∧
    (∀ rp1, (Res.ok 3 : Res Handle) = Res.ok rp1 →
      Heap.getRequest ⟨4, [], [], [(2, ⟨5⟩)], [(3, ⟨5⟩)]⟩ rp1 ≠ none ∧
      (∀ (r2 : Res Handle) (h2 : Heap),
        create_infer_request env0 ⟨4, [], [], [(2, ⟨5⟩)], [(3, ⟨5⟩)]⟩ 2 = (r2, h2) →
        h2.getExec 2 = some ⟨5⟩ ∧
        h2.getRequest rp1 = Heap.getRequest ⟨4, [], [], [(2, ⟨5⟩)], [(3, ⟨5⟩)]⟩ rp1 ∧
        (∀ rp2, r2 = Res.ok rp2 → rp2 ≠ rp1))) :=
  c5_create_infer_request_borrows env0 hexec 2 ⟨5⟩ (Res.ok 3)
    ⟨4, [], [], [(2, ⟨5⟩)], [(3, ⟨5⟩)]⟩ (by decide) (by decide) (by decide)

/-- C6: every library failure is propagated to the immediate caller
unmodified, for each of the operations of the layer (engine construction both
ways, network load both variants, network compile, request creation): when the
wrapped routine answers the error e, the bridge call answers exactly the error
e, with no retry, recovery or reinterpretation, the only other effect being
the destruction of by-value unique_ptr arguments. -/
theorem c6_errors_propagated_unmodified :
    ∀ (env : LibEnv) (h : Heap) (e : LibError),
      (∀ s, Core.construct env s = Except.error e →
        core_new env h s = (Res.err e, h)) ∧
      (Core.constructDefault env = Except.error e →
        core_new_default env h = (Res.err e, h)) ∧
      (∀ cp c modelPath binPath, h.getCore cp = some c →
        CoreVal.ReadNetwork env c modelPath binPath = Except.error e →
        read_network env h cp modelPath binPath = (Res.err e, h)) ∧
      (∀ cp c modelPath binPath, h.getCore cp = some c →
        CoreVal.ReadNetwork env c modelPath binPath = Except.error e →
        RootBridge.read_network env h (some cp) modelPath binPath =
          (Res.err e, h.freeCore cp)) ∧
      (∀ cp c np n device, h.getCore cp = some c → h.getNetwork np = some n →
        CoreVal.LoadNetwork env c n device = Except.error e →
        load_network env h cp (some np) device = (Res.err e, h.freeNetwork np)) ∧
      (∀ ep x, h.getExec ep = some x →
        ExecVal.CreateInferRequest env x = Except.error e →
        create_infer_request env h ep = (Res.err e, h)) := by
  intro env h e
  refine ⟨?_, ?_, ?_, ?_, ?_, ?_⟩
  · intro s hs
    simp [core_new, hs]
  · intro hs
    simp [core_new_default, hs]
  · intro cp c mp bp hc hr
    simp [read_network, hc, hr]
  · intro cp c mp bp hc hr
    simp [RootBridge.read_network, hc, hr]
  · intro cp c np n d hc hn hl
    simp [load_network, hc, hn, hl]
  · intro ep x hx hcr
    simp [create_infer_request, hx, hcr]

/-- Witness for C6: each of the six conjuncts applied at a concrete failing
input. -/
theorem c6_witness :
    core_new env0 h0 "badcfg" = (Res.err (LibError.configError "badcfg"), h0) ∧
    core_new_default envbad h0 = (Res.err (LibError.configError ""), h0) ∧
    read_network env0 h0 0 "missing.xml" "" =
      (Res.err (LibError.fileNotFound "missing.xml"), h0) ∧
    RootBridge.read_network env0 h0 (some 0) "missing.xml" "" =
      (Res.err (LibError.fileNotFound "missing.xml"), h0.freeCore 0) ∧
    load_network env0 hbadcore 0 (some 1) "CPU" =
      (Res.err (LibError.deviceError "CPU"), hbadcore.freeNetwork 1) ∧
    create_infer_request env0 hexec99 2 = (Res.err (LibError.otherErr 99), hexec99) := by
  refine ⟨?_, ?_, ?_, ?_, ?_, ?_⟩
  · exact (c6_errors_propagated_unmodified env0 h0
      (LibError.configError "badcfg")).1 "badcfg" (by decide)
  · exact (c6_errors_propagated_unmodified envbad h0
      (LibError.configError "")).2.1 (by decide)
  · exact (c6_errors_propagated_unmodified env0 h0
      (LibError.fileNotFound "missing.xml")).2.2.1 0 ⟨""⟩ "missing.xml" ""
      (by decide) (by decide)
  · exact (c6_errors_propagated_unmodified env0 h0
      (LibError.fileNotFound "missing.xml")).2.2.2.1 0 ⟨""⟩ "missing.xml" ""
      (by decide) (by decide)
  · exact (c6_errors_propagated_unmodified env0 hbadcore
      (LibError.deviceError "CPU")).2.2.2.2.1 0 ⟨"bad"⟩ 1 ⟨7⟩ "CPU"
      (by decide) (by decide) (by simp [CoreVal.LoadNetwork, env0])
  · exact (c6_errors_propagated_unmodified env0 hexec99
      (LibError.otherErr 99)).2.2.2.2.2 2 ⟨99⟩ (by decide)
      (by simp [ExecVal.CreateInferRequest, env0])

/-- C10: load_network dereferences its owned network argument with no null
check: a null network pointer always hits the unguarded dereference (undefined
behaviour), and when the passed handle is non-null and owns a live network
(the engine reference being valid), the call never hits undefined behaviour. -/
theorem c10_load_network_null_deref :
    (∀ (env : LibEnv) (h : Heap) (cp : Handle) (device : String),
      load_network env h cp none device = (Res.ub, h)) ∧
    (∀ (env : LibEnv) (h : Heap) (cp : Handle) (c : CoreVal) (np : Handle)
      (n : NetworkVal) (device : String),
      h.getCore cp = some c → h.getNetwork np = some n →
      (load_network env h cp (some np) device).1 ≠ Res.ub) := by
  constructor
  · intro env h cp d
    simp [load_network]
  · intro env h cp c np n d hc hn
    cases hx : env.compile c n d with
    | error e => simp [load_network, hc, hn, CoreVal.LoadNetwork, hx]
    | ok v => simp [load_network, hc, hn, CoreVal.LoadNetwork, hx, Heap.allocExec]

/-- Witness for C10 at a concrete input: the null case and the guarded
non-null case. -/
theorem c10_witness :
    load_network env0 h0 0 none "CPU" = (Res.ub, h0) ∧
    (load_network env0 h0 0 (some 1) "CPU").1 ≠ Res.ub :=
  ⟨c10_load_network_null_deref.1 env0 h0 0 "CPU",
   c10_load_network_null_deref.2 env0 h0 0 ⟨""⟩ 1 ⟨7⟩ "CPU" (by decide) (by decide)⟩

/-- C9: every operation of the layer, on success, returns a freshly allocated,
exclusively owned handle: the returned handle was live nowhere in the incoming
heap, the resulting heap is again well formed, the handle is usable (it owns
the new object), and two engine-construction calls in a row return distinct
handles (no hidden singleton reuse). -/
theorem c9_operations_return_fresh_handles :
    ∀ (env : LibEnv) (h : Heap), h.wf →
      (∀ s p h2, core_new env h s = (Res.ok p, h2) →
        p ∉ h.handles ∧ h2.wf ∧ (h2.getCore p).isSome = true) ∧
      (∀ p h2, core_new_default env h = (Res.ok p, h2) →
        p ∉ h.handles ∧ h2.wf ∧ (h2.getCore p).isSome = true) ∧
      (∀ cp modelPath binPath p h2,
        read_network env h cp modelPath binPath = (Res.ok p, h2) →
        p ∉ h.handles ∧ h2.wf ∧ (h2.getNetwork p).isSome = true) ∧
      (∀ cp np device p h2, load_network env h cp np device = (Res.ok p, h2) →
        p ∉ h.handles ∧ h2.wf ∧ (h2.getExec p).isSome = true) ∧
      (∀ ep p h2, create_infer_request env h ep = (Res.ok p, h2) →
        p ∉ h.handles ∧ h2.wf ∧ (h2.getRequest p).isSome = true) ∧
      (∀ s s2 p1 h1 p2 h2, core_new env h s = (Res.ok p1, h1) →
        core_new env h1 s2 = (Res.ok p2, h2) → p1 ≠ p2) := by
  intro env h hwf
  refine ⟨?_, ?_, ?_, ?_, ?_, ?_⟩
  · intro s p h2 heq
    cases hc : Core.construct env s with
    | error e => simp [core_new, hc] at heq
    | ok c =>
      simp only [core_new, hc, Heap.allocCore, Prod.mk.injEq, Res.ok.injEq] at heq
      obtain ⟨hp, hh⟩ := heq
      subst hp hh
      exact ⟨wf_next_not_mem hwf, wf_allocCore hwf c,
        by simp [Heap.getCore, assoc_cons_self]⟩
  · intro p h2 heq
    cases hc : Core.constructDefault env with
    | error e => simp [core_new_default, hc] at heq
    | ok c =>
      simp only [core_new_default, hc, Heap.allocCore, Prod.mk.injEq, Res.ok.injEq] at heq
      obtain ⟨hp, hh⟩ := heq
      subst hp hh
      exact ⟨wf_next_not_mem hwf, wf_allocCore hwf c,
        by simp [Heap.getCore, assoc_cons_self]⟩
  · intro cp mp bp p h2 heq
    cases hc : h.getCore cp with
    | none => simp [read_network, hc] at heq
    | some c =>
      cases hr : CoreVal.ReadNetwork env c mp bp with
      | error e => simp [read_network, hc, hr] at heq
      | ok n =>
        simp only [read_network, hc, hr, Heap.allocNetwork, Prod.mk.injEq,
          Res.ok.injEq] at heq
        obtain ⟨hp, hh⟩ := heq
        subst hp hh
        exact ⟨wf_next_not_mem hwf, wf_allocNetwork hwf n,
          by simp [Heap.getNetwork, assoc_cons_self]⟩
  · intro cp np d p h2 heq
    cases np with
    | none => simp [load_network] at heq
    | some nq =>
      cases hn : h.getNetwork nq with
      | none => simp [load_network, hn] at heq
      | some n =>
        cases hc : h.getCore cp with
        | none => simp [load_network, hn, hc] at heq
        | some c =>
          cases hx : env.compile c n d with
          | error e => simp [load_network, hn, hc, CoreVal.LoadNetwork, hx] at heq
          | ok x =>
            simp only [load_network, hn, hc, CoreVal.LoadNetwork, hx,
              Heap.freeNetwork, Heap.allocExec, Prod.mk.injEq, Res.ok.injEq] at heq
            obtain ⟨hp, hh⟩ := heq
            subst hp hh
            refine ⟨wf_next_not_mem hwf, ?_, by simp [Heap.getExec, assoc_cons_self]⟩
            exact wf_allocExec (wf_freeNetwork hwf nq) x
  · intro ep p h2 heq
    cases hx : h.getExec ep with
    | none => simp [create_infer_request, hx] at heq
    | some x =>
      cases hcr : env.createReq x with
      | error e =>
        simp [create_infer_request, hx, ExecVal.CreateInferRequest, hcr] at heq
      | ok rv =>
        simp only [create_infer_request, hx, ExecVal.CreateInferRequest, hcr,
          Heap.allocRequest, Prod.mk.injEq, Res.ok.injEq] at heq
        obtain ⟨hp, hh⟩ := heq
        subst hp hh
        exact ⟨wf_next_not_mem hwf, wf_allocRequest hwf rv,
          by simp [Heap.getRequest, assoc_cons_self]⟩
  · intro s s2 p1 h1 p2 h2 heq1 heq2
    cases hc1 : Core.construct env s with
    | error e => simp [core_new, hc1] at heq1
    | ok c1 =>
      simp only [core_new, hc1, Heap.allocCore, Prod.mk.injEq, Res.ok.injEq] at heq1
      obtain ⟨hp1, hh1⟩ := heq1
      subst hp1 hh1
      cases hc2 : Core.construct env s2 with
      | error e => simp [core_new, hc2] at heq2
      | ok c2 =>
        simp only [core_new, hc2, Heap.allocCore, Prod.mk.injEq, Res.ok.injEq] at heq2
        obtain ⟨hp2, hh2⟩ := heq2
        subst hp2 hh2
        exact Nat.ne_of_lt (Nat.lt_succ_self _)

/-- Witness for C9 at a concrete input: one engine construction on a live
heap, and two constructions in a row returning distinct handles. -/
theorem c9_witness :
    ((2 : Handle) ∉ h0.handles ∧
      Heap.wf ⟨3, [(2, ⟨"cfg"⟩), (0, ⟨""⟩)], [(1, ⟨7⟩)], [], []⟩ ∧
      (Heap.getCore ⟨3, [(2, ⟨"cfg"⟩), (0, ⟨""⟩)], [(1, ⟨7⟩)], [], []⟩ 2).isSome = true) ∧
    (2 : Handle) ≠ 3 := by
  constructor
  · exact (c9_operations_return_fresh_handles env0 h0 (by decide)).1 "cfg" 2
      ⟨3, [(2, ⟨"cfg"⟩), (0, ⟨""⟩)], [(1, ⟨7⟩)], [], []⟩ (by decide)
  · exact (c9_operations_return_fresh_handles env0 h0 (by decide)).2.2.2.2.2 "a" "b" 2
      ⟨3, [(2, ⟨"a"⟩), (0, ⟨""⟩)], [(1, ⟨7⟩)], [], []⟩ 3
      ⟨4, [(3, ⟨"b"⟩), (2, ⟨"a"⟩), (0, ⟨""⟩)], [(1, ⟨7⟩)], [], []⟩
      (by decide) (by decide)
